import Mathlib

/-!
Verification of the `Graigasm` luma-adaptive multi-band grain compositor
(`vardefunc/noise.py`) against its natural-language specification.

The embedding works per pixel over exact rationals: integer sample values
and Python floats are idealised as `ℚ`, Python's `round` (half to even,
returning `int`) as `pyRound : ℚ → ℤ`, and fallible Python computations
(`ZeroDivisionError`, `IndexError`, `ValueError`) as `Except PyErr` /
`Option` results.  Frame-level operations supplied by the external
VapourSynth runtime (`std.MakeDiff`, `std.MergeDiff`, resizers, grain
plugins, the per-pixel expression evaluator) are abstracted as function
parameters; everything computed by the repository's own code is embedded
directly from the source.
-/

set_option autoImplicit false

/-- Python exception kinds raised by the code paths embedded below. -/
inductive PyErr where
  | valueError
  | zeroDivisionError
  | indexError
deriving DecidableEq, Repr

/-- Python 3 `round` on an exact value: round half to even, producing an
integer (bankers' rounding). -/
def pyRound (q : ℚ) : ℤ :=
  let f : ℤ := ⌊q⌋
  let r : ℚ := q - (f : ℚ)
  if r < 1 / 2 then f
  else if 1 / 2 < r then f + 1
  else if f % 2 = 0 then f else f + 1

/-- Embeds `Graigasm._make_mask._func` (noise.py lines 225-234), the
integer-format per-pixel mask function.  The branch testing
`min_thr <= x <= max_thr` is taken first, exactly as in the source; inside
it Python evaluates `(x - min_thr) / (max_thr - min_thr)`, which raises
`ZeroDivisionError` when the two thresholds coincide — modelled as `none`.
The final `some (pyRound x)` is the source's fall-through `return round(x)`. -/
def maskFunc (thr overflow peak x : ℚ) : Option ℤ :=
  let min_thr := thr - (overflow * peak) / 2
  let max_thr := thr + (overflow * peak) / 2
  if min_thr ≤ x ∧ x ≤ max_thr then
    if max_thr - min_thr = 0 then none
    else some (pyRound |((x - min_thr) / (max_thr - min_thr)) * peak - peak|)
  else if x < min_thr then some (pyRound peak)
  else if x > max_thr then some (pyRound 0)
  else some (pyRound x)

/-- Embeds the float-format expression built by `Graigasm._make_mask`
(noise.py lines 236-243): the same three-way branch without the `round`,
the final else keeping `x`.  The division of the transition-zone formula is
undefined (`none`) when `max_thr = min_thr`; what the external expression
evaluator does on that degenerate division is outside the formula's domain. -/
def maskExprFloat (thr overflow peak x : ℚ) : Option ℚ :=
  let min_thr := thr - (overflow * peak) / 2
  let max_thr := thr + (overflow * peak) / 2
  if min_thr ≤ x ∧ x ≤ max_thr then
    if max_thr - min_thr = 0 then none
    else some |((x - min_thr) / (max_thr - min_thr)) * peak - peak|
  else if x < min_thr then some peak
  else if x > max_thr then some (0 : ℚ)
  else some x

/-- Modelled from the spec's words (§4.1): `min_thr = threshold -
overflow*peak/2`, `max_thr = threshold + overflow*peak/2`; mask is `peak`
when `x < min_thr`, `0` when `x > max_thr`, else the linear interpolation
`|((x - min_thr)/(max_thr - min_thr)) * peak - peak|`; output rounded for
non-float formats.  Stated with the spec's branch order, for comparison
with `maskFunc`. -/
def specMaskInt (thr overflow peak x : ℚ) : Option ℤ :=
  let min_thr := thr - (overflow * peak) / 2
  let max_thr := thr + (overflow * peak) / 2
  if x < min_thr then some (pyRound peak)
  else if x > max_thr then some (pyRound 0)
  else if max_thr - min_thr = 0 then none
  else some (pyRound |((x - min_thr) / (max_thr - min_thr)) * peak - peak|)

/-- Modelled from the spec's words (§4.1), float variant: same branch order
as `specMaskInt`, no rounding. -/
def specMaskFloat (thr overflow peak x : ℚ) : Option ℚ :=
  let min_thr := thr - (overflow * peak) / 2
  let max_thr := thr + (overflow * peak) / 2
  if x < min_thr then some peak
  else if x > max_thr then some (0 : ℚ)
  else if max_thr - min_thr = 0 then none
  else some |((x - min_thr) / (max_thr - min_thr)) * peak - peak|

/-- C1: for every reference sample `x`, threshold, overflow and peak, the
per-pixel mask computed by `Graigasm._make_mask` (both the rounded
integer-format path and the float-format expression path) agrees exactly
with the spec's formula — `peak` below `min_thr`, `0` above `max_thr`, the
linear ramp `|((x - min_thr)/(max_thr - min_thr)) * peak - peak|` inside
the transition zone, rounded only on the integer path. -/
theorem make_mask_matches_spec (thr overflow peak x : ℚ) :
    maskFunc thr overflow peak x = specMaskInt thr overflow peak x ∧
    maskExprFloat thr overflow peak x = specMaskFloat thr overflow peak x := by
  constructor <;>
  · simp only [maskFunc, specMaskInt, maskExprFloat, specMaskFloat]
    by_cases h1 : thr - overflow * peak / 2 ≤ x ∧ x ≤ thr + overflow * peak / 2
    · rw [if_pos h1, if_neg (not_lt.mpr h1.1), if_neg (not_lt.mpr h1.2)]
    · rw [if_neg h1]
      rcases not_and_or.mp h1 with h2 | h2
      · rw [if_pos (not_le.mp h2), if_pos (not_le.mp h2)]
      · by_cases h3 : x < thr - overflow * peak / 2
        · rw [if_pos h3, if_pos h3]
        · rw [if_neg h3, if_pos (not_le.mp h2), if_neg h3, if_pos (not_le.mp h2)]

/-- Counterexample for the overflow-zero totality claim: with `thr = 128`,
`peak = 255` and the boundary sample `x = 128`, `_func` takes the
transition-zone branch (`min_thr <= x <= max_thr` holds as `128 <= 128 <=
128`) and evaluates `(x - min_thr) / (max_thr - min_thr) = 0 / 0`, which
raises `ZeroDivisionError` in Python — the computation is not total and the
boundary sample does not receive a well-defined value. -/
theorem mask_overflow_zero_boundary_raises :
    maskFunc 128 0 255 128 = none := by
  norm_num [maskFunc]

/-- C5 (amended): for a single band with `overflow = 0`, the integer-path
mask function is a hard step away from the boundary — exactly `peak`
(rounded) strictly below the threshold and exactly `0` strictly above it —
but at a reference sample exactly equal to the threshold the transition
branch is taken and its interpolation divides by zero, so `_func` raises
`ZeroDivisionError` instead of returning a value. -/
theorem mask_overflow_zero_step (thr peak x : ℚ) :
    (x < thr → maskFunc thr 0 peak x = some (pyRound peak)) ∧
    (x > thr → maskFunc thr 0 peak x = some 0) ∧
    (x = thr → maskFunc thr 0 peak x = none) := by
  have hz : pyRound 0 = 0 := by norm_num [pyRound]
  refine ⟨fun hlt => ?_, fun hgt => ?_, fun heq => ?_⟩
  · simp only [maskFunc]
    rw [show thr - (0 * peak) / 2 = thr from by ring,
        show thr + (0 * peak) / 2 = thr from by ring,
        if_neg (fun hc => absurd hc.1 (not_le.mpr hlt)), if_pos hlt]
  · simp only [maskFunc]
    rw [show thr - (0 * peak) / 2 = thr from by ring,
        show thr + (0 * peak) / 2 = thr from by ring,
        if_neg (fun hc => absurd hc.2 (not_le.mpr hgt)),
        if_neg (not_lt.mpr (le_of_lt hgt)), if_pos hgt, hz]
  · simp only [maskFunc]
    rw [show thr - (0 * peak) / 2 = thr from by ring,
        show thr + (0 * peak) / 2 = thr from by ring,
        if_pos ⟨le_of_eq heq.symm, le_of_eq heq⟩, if_pos (by ring)]

theorem mask_overflow_zero_step_witness :
    maskFunc 128 0 255 100 = some 255 ∧
    maskFunc 128 0 255 200 = some 0 ∧
    maskFunc 128 0 255 128 = none := by
  have h := mask_overflow_zero_step 128 255 128
  have hlo := (mask_overflow_zero_step 128 255 100).1 (by norm_num)
  have hhi := (mask_overflow_zero_step 128 255 200).2.1 (by norm_num)
  refine ⟨?_, hhi, h.2.2 rfl⟩
  rw [hlo]
  norm_num [pyRound]

/-- Embeds the cumulative-to-exclusive mask reduction of `Graigasm.graining`
(noise.py lines 158-159), per pixel: the synthetic all-zero `BlankClip` mask
is prepended, and band `i`'s exclusive mask is `Expr([masks[i], masks[i-1]],
'x y -')`, i.e. the pointwise difference of consecutive entries. -/
def exclusiveMasks (cums : List ℚ) : List ℚ :=
  List.zipWith (fun x y => x - y) cums ((0 : ℚ) :: cums)

lemma zipWith_sub_cons_getD (l : List ℚ) (a : ℚ) (i : Nat) (hi : i < l.length) :
    (List.zipWith (fun x y => x - y) l (a :: l)).getD i 0
      = l.getD i 0 - (a :: l).getD i 0 := by
  induction l generalizing a i with
  | nil => exact absurd hi (Nat.not_lt_zero i)
  | cons x xs ih =>
      cases i with
      | zero => simp
      | succ j =>
          simp only [List.zipWith_cons_cons, List.getD_cons_succ]
          exact ih x j (Nat.lt_of_succ_lt_succ hi)

lemma zipWith_sub_cons_sum (l : List ℚ) (a : ℚ) :
    (List.zipWith (fun x y => x - y) l (a :: l)).sum = l.getLastD a - a := by
  induction l generalizing a with
  | nil => simp
  | cons x xs ih =>
      simp only [List.zipWith_cons_cons, List.sum_cons, ih x, List.getLastD_cons]
      ring

/-- C3: band `i`'s exclusive mask is exactly the increment of cumulative
mask `i` over its predecessor in the zero-prepended list, and the sum of
all exclusive masks plus the synthetic leading zero mask telescopes back to
the last cumulative mask exactly. -/
theorem exclusive_masks_increment_and_telescope (cums : List ℚ) (i : Nat)
    (hi : i < cums.length) :
    (exclusiveMasks cums).getD i 0 = cums.getD i 0 - ((0 : ℚ) :: cums).getD i 0 ∧
    (0 : ℚ) + (exclusiveMasks cums).sum = cums.getLastD 0 := by
  refine ⟨zipWith_sub_cons_getD cums 0 i hi, ?_⟩
  rw [zero_add]
  simp only [exclusiveMasks]
  rw [zipWith_sub_cons_sum, sub_zero]

theorem exclusive_masks_witness :
    (exclusiveMasks [3, 5, 4]).getD 1 0 = (2 : ℚ) ∧
    (0 : ℚ) + (exclusiveMasks [3, 5, 4]).sum = 4 := by
  have h := exclusive_masks_increment_and_telescope [3, 5, 4] 1 (by norm_num)
  refine ⟨?_, h.2⟩
  rw [h.1]
  norm_num

/-- The `overflows` argument of `Graigasm.__init__`: omitted (`None`), a
single float, or a sequence of floats. -/
inductive OverflowsArg where
  | noneGiven
  | single (v : ℚ)
  | seq (l : List ℚ)
deriving DecidableEq

/-- The `grainers` argument of `Graigasm.__init__`: a single `Grainer` or a
sequence of them.  Grainer objects themselves are opaque to the
constructor, so they are an arbitrary type `α`. -/
inductive GrainersArg (α : Type) where
  | single (g : α)
  | seq (l : List α)
deriving DecidableEq

/-- The fields `Graigasm.__init__` stores on success. -/
structure GraigasmState (α : Type) where
  thrs : List ℚ
  strengths : List (ℚ × ℚ)
  sizes : List ℚ
  sharps : List ℚ
  overflows : List ℚ
  grainers : List α
deriving DecidableEq

/-- Embeds the list-extension idiom `lst += [lst[-1]] * (length -
len(lst))` used by `Graigasm.__init__` (noise.py lines 113-114 and
120-121): `lst[-1]` raises `IndexError` on an empty list; a non-positive
repeat count leaves the list unchanged (modelled by truncated `Nat`
subtraction). -/
def padLast {β : Type} (l : List β) (n : Nat) : Except PyErr (List β) :=
  match l.getLast? with
  | some a => Except.ok (l ++ List.replicate (n - l.length) a)
  | none => Except.error PyErr.indexError

/-- Embeds the `overflows` normalisation of `Graigasm.__init__` (noise.py
lines 108-115): `None` becomes the one-element list `[1/length]` (Python
raises `ZeroDivisionError` when `length = 0`), a single float is broadcast
to `length` copies, and any list (including the defaulted one) is padded by
repeating its last element. -/
def normalizeOverflows (arg : OverflowsArg) (length : Nat) : Except PyErr (List ℚ) :=
  match arg with
  | OverflowsArg.single v => Except.ok (List.replicate length v)
  | OverflowsArg.noneGiven =>
      if length = 0 then Except.error PyErr.zeroDivisionError
      else padLast [1 / (length : ℚ)] length
  | OverflowsArg.seq l => padLast l length

/-- Embeds the `grainers` normalisation of `Graigasm.__init__` (noise.py
lines 117-122): a single grainer is broadcast, a sequence is padded with
its last element. -/
def normalizeGrainers {α : Type} (arg : GrainersArg α) (length : Nat) :
    Except PyErr (List α) :=
  match arg with
  | GrainersArg.single g => Except.ok (List.replicate length g)
  | GrainersArg.seq l => padLast l length

/-- Embeds `Graigasm.__init__` (noise.py lines 98-122).  The length check
is the source's `all(len(lst) != length for lst in datas)`: it raises
`ValueError` only when all three of `strengths`, `sizes`, `sharps` differ
in length from `thrs`. -/
def graigasmInit {α : Type} (thrs : List ℚ) (strengths : List (ℚ × ℚ))
    (sizes sharps : List ℚ) (overflows : OverflowsArg) (grainers : GrainersArg α) :
    Except PyErr (GraigasmState α) :=
  let length := thrs.length
  if strengths.length ≠ length ∧ sizes.length ≠ length ∧ sharps.length ≠ length then
    Except.error PyErr.valueError
  else
    match normalizeOverflows overflows length with
    | Except.error e => Except.error e
    | Except.ok ovfs =>
        match normalizeGrainers grainers length with
        | Except.error e => Except.error e
        | Except.ok gs => Except.ok ⟨thrs, strengths, sizes, sharps, ovfs, gs⟩

lemma padLast_eq_of_getLast? {β : Type} {l : List β} {a : β}
    (h : l.getLast? = some a) (n : Nat) :
    padLast l n = Except.ok (l ++ List.replicate (n - l.length) a) := by
  unfold padLast
  rw [h]

lemma singleton_append_replicate {β : Type} (x : β) (n : Nat) (h : 0 < n) :
    [x] ++ List.replicate (n - 1) x = List.replicate n x := by
  cases n with
  | zero => exact absurd h (lt_irrefl 0)
  | succ m => simp [List.replicate_succ]

/-- C7: at construction, a single `overflows` or `grainers` value is
broadcast to every band; a sequence is filled out by repeating its last
element up to the number of bands; and an omitted `overflows` defaults to
`1/len(thrs)` repeated for every band. -/
theorem init_broadcasts {α : Type} (bands : Nat) (hpos : 0 < bands) (v : ℚ) (g : α)
    (l : List ℚ) (lastl : ℚ) (hl : l.getLast? = some lastl)
    (lg : List α) (lastg : α) (hlg : lg.getLast? = some lastg) :
    normalizeOverflows (OverflowsArg.single v) bands
      = Except.ok (List.replicate bands v) ∧
    normalizeGrainers (GrainersArg.single g) bands
      = Except.ok (List.replicate bands g) ∧
    normalizeOverflows (OverflowsArg.seq l) bands
      = Except.ok (l ++ List.replicate (bands - l.length) lastl) ∧
    normalizeGrainers (GrainersArg.seq lg) bands
      = Except.ok (lg ++ List.replicate (bands - lg.length) lastg) ∧
    normalizeOverflows OverflowsArg.noneGiven bands
      = Except.ok (List.replicate bands (1 / (bands : ℚ))) := by
  refine ⟨rfl, rfl, padLast_eq_of_getLast? hl bands, padLast_eq_of_getLast? hlg bands, ?_⟩
  show (if bands = 0 then Except.error PyErr.zeroDivisionError
        else padLast [1 / (bands : ℚ)] bands) = _
  rw [if_neg (Nat.pos_iff_ne_zero.mp hpos),
      padLast_eq_of_getLast?
        (show ([1 / (bands : ℚ)] : List ℚ).getLast? = some (1 / (bands : ℚ)) from rfl)
        bands]
  rw [show ([1 / (bands : ℚ)] : List ℚ).length = 1 from rfl,
      singleton_append_replicate _ bands hpos]

theorem init_broadcasts_witness :
    normalizeOverflows (OverflowsArg.single 2) 3 = Except.ok [2, 2, 2] ∧
    normalizeGrainers (GrainersArg.single ()) 3 = Except.ok [(), (), ()] ∧
    normalizeOverflows (OverflowsArg.seq [5, 7]) 3 = Except.ok [5, 7, 7] ∧
    normalizeGrainers (GrainersArg.seq [()]) 3 = Except.ok [(), (), ()] ∧
    normalizeOverflows OverflowsArg.noneGiven 3 = Except.ok [1 / 3, 1 / 3, 1 / 3] := by
  have h := init_broadcasts (α := Unit) 3 (by norm_num) 2 () [5, 7] 7 rfl [()] () rfl
  refine ⟨h.1, h.2.1, ?_, ?_, ?_⟩
  · rw [h.2.2.1]; rfl
  · rw [h.2.2.2.1]; rfl
  · rw [h.2.2.2.2]; norm_num [List.replicate_succ]

/-- C4 (code bug evidence): `thrs`, `strengths` and `sharps` have length 1
but `sizes` has length 2, yet construction succeeds — the source's guard
`all(len(lst) != length for lst in datas)` fires only when all three lists
differ from `len(thrs)`, so a single mismatched list slips through without
the documented `ValueError`. -/
theorem init_single_length_mismatch_not_rejected :
    graigasmInit [(100 : ℚ)] [((1 : ℚ), (1 : ℚ))] [1, 2] [1]
        (OverflowsArg.single (1 / 2)) (GrainersArg.single ())
      = Except.ok ⟨[100], [(1, 1)], [1, 2], [1], [1 / 2], [()]⟩ := by
  rfl

/-- C10: with all four per-band sequences empty and `overflows` omitted,
the length check passes (`all(...)` is false since every list has length
`0 = len(thrs)`) and construction fails computing the default overflow
`1/len(thrs) = 1/0`, a `ZeroDivisionError` — not the documented
length-mismatch `ValueError`. -/
theorem init_empty_bands_zero_division :
    graigasmInit ([] : List ℚ) [] [] [] OverflowsArg.noneGiven (GrainersArg.single ())
        = Except.error PyErr.zeroDivisionError ∧
    PyErr.zeroDivisionError ≠ PyErr.valueError := by
  exact ⟨rfl, by decide⟩

/-- Embeds the `ss_mod` dictionary of `Graigasm._get_mod` (noise.py lines
206-213): chroma-subsampling pair to required modulus, `none` for a key
outside the dictionary. -/
def ssModLookup : Nat × Nat → Option Nat
  | (0, 0) => some 1
  | (1, 1) => some 2
  | (1, 0) => some 2
  | (0, 1) => some 2
  | (2, 2) => some 4
  | (2, 0) => some 4
  | _ => none

/-- Embeds `Graigasm._get_mod` (noise.py lines 204-218): the dictionary
lookup, with the `KeyError` of an unsupported pair re-raised as
`ValueError`. -/
def getMod (ssw ssh : Nat) : Except PyErr Nat :=
  match ssModLookup (ssw, ssh) with
  | some m => Except.ok m
  | none => Except.error PyErr.valueError

/-- Embeds `Graigasm._m__` (noise.py lines 247-249): round `x` down to the
nearest multiple of `md` (Python `%` on a positive modulus matches
`Int.emod`). -/
def m__ (x md : ℤ) : ℤ := x - x % md

/-- Embeds the down-sampled dimension computation of
`Graigasm._make_grained` (noise.py lines 194-195): `ss_w =
_m__(round(clip.width / size), mod)` and likewise for the height.  Python's
float division raises `ZeroDivisionError` when `size = 0`; the remaining
body of `_make_grained` (blank clip, grainer, bicubic resize, `MakeDiff`)
is performed by the external runtime on frames of these dimensions and has
no further failure branch in this code. -/
def makeGrainedDims (w h : Nat) (size : ℚ) (md : ℤ) : Except PyErr (ℤ × ℤ) :=
  if size = 0 then Except.error PyErr.zeroDivisionError
  else Except.ok (m__ (pyRound ((w : ℚ) / size)) md, m__ (pyRound ((h : ℚ) / size)) md)

lemma dvd_m__ (md x : ℤ) : md ∣ m__ x md := by
  refine ⟨x / md, ?_⟩
  have h := Int.ediv_add_emod x md
  unfold m__
  linarith

/-- C6: the chroma-alignment modulus maps `(0,0)` to `1`, each of `(1,0)`,
`(0,1)`, `(1,1)` to `2`, each of `(2,0)`, `(2,2)` to `4`; any other
subsampling pair fails with the unsupported-format `ValueError`; and for
every looked-up modulus, the down-sampled dimensions computed in
`_make_grained` are exact multiples of that modulus. -/
theorem get_mod_lookup_and_dims_alignment :
    getMod 0 0 = Except.ok 1 ∧ getMod 1 0 = Except.ok 2 ∧ getMod 0 1 = Except.ok 2 ∧
    getMod 1 1 = Except.ok 2 ∧ getMod 2 0 = Except.ok 4 ∧ getMod 2 2 = Except.ok 4 ∧
    (∀ ssw ssh : Nat,
      (ssw, ssh) ∉ ([(0, 0), (1, 0), (0, 1), (1, 1), (2, 0), (2, 2)] : List (Nat × Nat)) →
      getMod ssw ssh = Except.error PyErr.valueError) ∧
    (∀ (w h : Nat) (size : ℚ) (ssw ssh m : Nat) (dw dh : ℤ),
      getMod ssw ssh = Except.ok m →
      makeGrainedDims w h size (m : ℤ) = Except.ok (dw, dh) →
      (m : ℤ) ∣ dw ∧ (m : ℤ) ∣ dh) := by
  refine ⟨rfl, rfl, rfl, rfl, rfl, rfl, ?_, ?_⟩
  · intro ssw ssh hmem
    rcases ssw with _ | _ | _ | sw <;> rcases ssh with _ | _ | _ | sh <;>
      first
        | rfl
        | exact absurd (by decide) hmem
  · intro w h size ssw ssh m dw dh hmod hdims
    by_cases hs : size = 0
    · rw [makeGrainedDims, if_pos hs] at hdims
      exact Except.noConfusion hdims
    · rw [makeGrainedDims, if_neg hs] at hdims
      simp only [Except.ok.injEq, Prod.mk.injEq] at hdims
      obtain ⟨h1, h2⟩ := hdims
      exact ⟨h1 ▸ dvd_m__ _ _, h2 ▸ dvd_m__ _ _⟩

theorem get_mod_alignment_witness :
    getMod 3 1 = Except.error PyErr.valueError ∧
    ((4 : Nat) : ℤ) ∣ 12 ∧ ((4 : Nat) : ℤ) ∣ 8 := by
  have h := get_mod_lookup_and_dims_alignment
  refine ⟨h.2.2.2.2.2.2.1 3 1 (by decide), ?_⟩
  exact h.2.2.2.2.2.2.2 32 20 (5 / 2 : ℚ) 2 2 4 12 8 rfl
    (by norm_num [makeGrainedDims, m__, pyRound])

/-- C8 (code bug evidence): a band whose `size` sends both down-sampled
dimensions to zero is not rejected — `_make_grained` computes `(0, 0)`
(here from a 4x4 frame with `size = 100`, modulus 1) and passes the zero
dimensions straight to the external `BlankClip`/grainer pipeline; no
configuration error is raised by this code. -/
theorem make_grained_zero_dims_not_rejected :
    makeGrainedDims 4 4 100 1 = Except.ok (0, 0) := by
  norm_num [makeGrainedDims, m__, pyRound]

/-- The two possible returns of `Graigasm.graining` at one pixel: the
`show_masks` diagnostic list of per-band masks, each paired with its band's
threshold label, or the composited output sample. -/
inductive GrainingOut where
  | masksOut (ms : List (ℚ × ℚ))
  | grained (out : ℚ)
deriving DecidableEq

/-- Per-pixel model of the body of `Graigasm.graining` (noise.py lines
157-188) after the per-band cumulative masks have been evaluated on the
reference sample (their per-pixel functions are `maskFunc` /
`maskExprFloat` above).  External frame operations appear as parameters:
`mergeDiffOp` and `makeDiffOp` are `std.MergeDiff` / `std.MakeDiff`, and
`grainFns` gives, per band, the value the externally grained and resized
blank clip takes at this pixel (each list entry is one `grainer.grain`
invocation inside `_make_grained`; the second component of the result
counts those invocations).  The blend is the source's expression
`'x z peak / * y 1 z peak / - * +'` and the final loop is the source's
`out = MergeDiff(clip_adg, MakeDiff(clip, out))` fold started at the
source sample. -/
def graining (mergeDiffOp makeDiffOp : ℚ → ℚ → ℚ) (grainFns : List (ℚ → ℚ))
    (thrs cums : List ℚ) (peak : ℚ) (showMasks : Bool) (px : ℚ) :
    GrainingOut × Nat :=
  let masks := exclusiveMasks cums
  if showMasks then (GrainingOut.masksOut (thrs.zip masks), 0)
  else
    let graineds := grainFns.map (fun g => makeDiffOp px (g px))
    let clips_adg := (graineds.zip masks).map
      (fun gm => gm.1 * (gm.2 / peak) + px * (1 - gm.2 / peak))
    (GrainingOut.grained
      (clips_adg.foldl (fun out c => mergeDiffOp c (makeDiffOp px out)) px),
     grainFns.length)

/-- Modelled from the spec's words (§4.3): `blended_i = grained_diff_i *
(mask_i/peak) + base_frame * (1 - mask_i/peak)`. -/
def specBlend (peak grainedDiff base mask : ℚ) : ℚ :=
  grainedDiff * (mask / peak) + base * (1 - mask / peak)

/-- C2: at every pixel, each band's blended layer is exactly the spec's
linear cross-fade `grained_diff_i * (mask_i/peak) + base * (1 -
mask_i/peak)` over the band's exclusive mask, and the final output is the
sequential fold `output := merge_diff(blended_i, make_diff(base, output))`
over the bands in order, starting from the base sample. -/
theorem graining_blend_and_fold (mergeDiffOp makeDiffOp : ℚ → ℚ → ℚ)
    (grainFns : List (ℚ → ℚ)) (thrs cums : List ℚ) (peak px : ℚ) :
    graining mergeDiffOp makeDiffOp grainFns thrs cums peak false px
      = (GrainingOut.grained
          ((((grainFns.map (fun g => makeDiffOp px (g px))).zip
              (exclusiveMasks cums)).map
            (fun gm => specBlend peak gm.1 px gm.2)).foldl
            (fun out b => mergeDiffOp b (makeDiffOp px out)) px),
         grainFns.length) := rfl

/-- C9: with `show_masks=True`, `graining` returns the per-band exclusive
masks, each labelled with its band's threshold, and performs zero grainer
invocations — the early return precedes the `_make_grained` comprehension,
so no `Grainer.grain` call happens on this path. -/
theorem graining_show_masks_no_grain (mergeDiffOp makeDiffOp : ℚ → ℚ → ℚ)
    (grainFns : List (ℚ → ℚ)) (thrs cums : List ℚ) (peak px : ℚ) :
    graining mergeDiffOp makeDiffOp grainFns thrs cums peak true px
      = (GrainingOut.masksOut (thrs.zip (exclusiveMasks cums)), 0) := rfl
